import Mathlib

/-!
Shallow embedding of the `iter-skak` library (`src/lib.rs`).

The library has two layers:

* `Skip<I>`: a reimplementation of `std::iter::Skip`, wrapping an iterator
  together with a pending skip count `n : usize`.
* `Skak<I>`: a windowing accumulator.  `Skak::new(iter, index)` materializes
  the first `index` elements from a clone and wraps the original iterator in
  `Skip::new(iter, index)`; `Skak::skip(iter, index)` materializes `index`
  elements from a clone of the `Skip` and then does `iter.iter.n += index`.

We model the underlying source iterator as the list of elements it has yet
to produce (the behaviour of `std`'s list/vec iterators), and `usize`
arithmetic as `Nat` with explicit saturation at `USIZE_MAX` (`saturating_add`)
and wrapping modulo `USIZE_MAX + 1` (the release-mode behaviour of `+=`).
`Nat` subtraction is truncated, which coincides with `usize::saturating_sub`.
-/

set_option autoImplicit false

universe u v w

variable {α : Type u} {β : Type v} {ε : Type w}

/-- The largest value of a 64-bit `usize`. -/
def USIZE_MAX : Nat := 2 ^ 64 - 1

/-- `usize::saturating_add`. -/
def satAdd (a b : Nat) : Nat := min (a + b) USIZE_MAX

/-- `Iterator::next` of a list-backed source iterator: yield the first
remaining element. -/
def listNext (l : List α) : Option α × List α := (l.head?, l.tail)

/-- `Iterator::nth k` of a list-backed source: advance past `k + 1` elements
and return the `(k+1)`-st if it existed; the iterator is left after it. -/
def listNth (l : List α) (k : Nat) : Option α × List α := (l[k]?, l.drop (k + 1))

/-- `Iterator::advance_by k` of a list-backed source: `Ok` if `k` elements
could be discarded, otherwise `Err(advanced)` with the number actually
discarded (the whole rest of the iterator). -/
def listAdvanceBy (l : List α) (k : Nat) : Except Nat Unit × List α :=
  if k ≤ l.length then (.ok (), l.drop k) else (.error l.length, [])

/-- `Iterator::try_fold` of a list-backed source, with the `Try` type
instantiated at `Except ε`.  Returns the outcome and the remaining
iterator state. -/
def listTryFoldlSt (g : β → α → Except ε β) : β → List α → Except ε β × List α
  | acc, [] => (.ok acc, [])
  | acc, a :: as =>
    match g acc a with
    | .ok b => listTryFoldlSt g b as
    | .error e => (.error e, as)

/-- The outcome of `listTryFoldlSt` alone. -/
def listTryFoldl (g : β → α → Except ε β) (acc : β) (l : List α) : Except ε β :=
  (listTryFoldlSt g acc l).1

/-- `Iterator::size_hint` of a list-backed source: exact bounds. -/
def listSizeHint (l : List α) : Nat × Option Nat := (l.length, some l.length)

/-- `Skip<I>` from `src/lib.rs`: the source iterator plus the pending skip
count `n`. -/
structure Skip (α : Type u) where
  iter : List α
  n : Nat
  deriving Repr, DecidableEq

/-- `Skip::new`. -/
def Skip.new (l : List α) (n : Nat) : Skip α := ⟨l, n⟩

/-- `Skip::next`: if `n > 0`, take `n` out (leaving 0), bulk-advance the
source with `nth(n - 1)` discarding the result, then pull one element. -/
def Skip.next (s : Skip α) : Option α × Skip α :=
  if s.n > 0 then
    let p1 := listNth s.iter (s.n - 1)
    let p2 := listNext p1.2
    (p2.1, ⟨p2.2, 0⟩)
  else
    let p := listNext s.iter
    (p.1, ⟨p.2, 0⟩)

/-- `Skip::nth`: pay off the pending count with `nth(to_skip - 1)` (bailing
out with `None` if the source ends there), then delegate `nth(k)`. -/
def Skip.nth (s : Skip α) (k : Nat) : Option α × Skip α :=
  if s.n > 0 then
    match listNth s.iter (s.n - 1) with
    | (none, it) => (none, ⟨it, 0⟩)
    | (some _, it) =>
      let p := listNth it k
      (p.1, ⟨p.2, 0⟩)
  else
    let p := listNth s.iter k
    (p.1, ⟨p.2, 0⟩)

/-- `Skip::count`: pay off the pending count (returning 0 if the source ends
during pay-off), then count the rest. -/
def Skip.count (s : Skip α) : Nat :=
  if s.n > 0 then
    match listNth s.iter (s.n - 1) with
    | (none, _) => 0
    | (some _, it) => it.length
  else s.iter.length

/-- `Skip::last`: pay off the pending count (returning `None` if the source
ends during pay-off), then take the last remaining element. -/
def Skip.last (s : Skip α) : Option α :=
  if s.n > 0 then
    match listNth s.iter (s.n - 1) with
    | (none, _) => none
    | (some _, it) => it.getLast?
  else s.iter.getLast?

/-- The bound computation of `Skip::size_hint`, as a function of the source's
size hint: both bounds reduced by `n` with `saturating_sub`, an unknown upper
bound staying unknown. -/
def skipSizeHint (src : Nat × Option Nat) (n : Nat) : Nat × Option Nat :=
  let lower := src.1 - n
  let upper :=
    match src.2 with
    | some x => some (x - n)
    | none => none
  (lower, upper)

/-- `Skip::size_hint` over a list-backed source. -/
def Skip.size_hint (s : Skip α) : Nat × Option Nat :=
  skipSizeHint (listSizeHint s.iter) s.n

/-- `Skip::try_fold`: zero `n` up front, pay it off (returning `try { init }`
if the source ends during pay-off), then delegate the source's `try_fold`. -/
def Skip.try_fold (s : Skip α) (init : β) (g : β → α → Except ε β) :
    Except ε β × Skip α :=
  if s.n > 0 then
    match listNth s.iter (s.n - 1) with
    | (none, it) => (.ok init, ⟨it, 0⟩)
    | (some _, it) =>
      let p := listTryFoldlSt g init it
      (p.1, ⟨p.2, 0⟩)
  else
    let p := listTryFoldlSt g init s.iter
    (p.1, ⟨p.2, 0⟩)

/-- `Skip::fold`: pay off the pending count (returning `init` if the source
ends during pay-off), then delegate the source's `fold`. -/
def Skip.fold (s : Skip α) (init : β) (f : β → α → β) : β :=
  if s.n > 0 then
    match listNth s.iter (s.n - 1) with
    | (none, _) => init
    | (some _, it) => it.foldl f init
  else s.iter.foldl f init

/-- `Skip::advance_by`: combine `n` with the pending count using
`saturating_add`, bulk-advance, recover a saturated remainder with a second
bulk-advance, and on exhaustion report only the part of the caller's `n`
that was satisfied (`advanced.saturating_sub(self.n)`). -/
def Skip.advance_by (s : Skip α) (n : Nat) : Except Nat Unit × Skip α :=
  let stepOne := satAdd s.n n
  match listAdvanceBy s.iter stepOne with
  | (.ok _, it) =>
    let rem := n - (stepOne - s.n)
    if rem > 0 then
      -- the stepOne calculation saturated
      match listAdvanceBy it rem with
      | (.ok _, it2) => (.ok (), ⟨it2, 0⟩)
      | (.error advanced, it2) => (.error (n - (rem - advanced)), ⟨it2, 0⟩)
    else
      (.ok (), ⟨it, 0⟩)
  | (.error advanced, it) =>
    let advancedWithoutSkip := advanced - s.n
    let n2 := s.n - advanced
    (if n = 0 then .ok () else .error advancedWithoutSkip, ⟨it, n2⟩)

/-- Repeatedly produce from a `Skip` with the given amount of fuel, stopping
at the first `None`. -/
def produceFuel : Nat → Skip α → List α
  | 0, _ => []
  | fuel + 1, s =>
    match Skip.next s with
    | (none, _) => []
    | (some a, s') => a :: produceFuel fuel s'

/-- All elements obtained by repeatedly calling `Skip::next` until exhaustion
(the fuel strictly exceeds the number of elements the source can yield). -/
def Skip.produce (s : Skip α) : List α := produceFuel (s.iter.length + 1) s

/-- The state of a `Skip` after `k` calls to `Skip::next`. -/
def Skip.nexts : Nat → Skip α → Skip α
  | 0, s => s
  | k + 1, s => Skip.nexts k (Skip.next s).2

/-- Collect up to `k` elements from a `Skip` by repeated `next`, the way
`Iterator::take(k).collect()` drives it: stop after `k` elements or at the
first `None`. -/
def skakTake (s : Skip α) : Nat → List α
  | 0 => []
  | k + 1 =>
    match Skip.next s with
    | (none, _) => []
    | (some a, s') => a :: skakTake s' k

/-- `Skak::new(iter, index)`: materialize the first `index` elements from a
clone of the source, and wrap the untouched original in
`Skip::new(iter, index)`. -/
def Skak.new (l : List α) (index : Nat) : List α × Skip α :=
  (l.take index, ⟨l, index⟩)

/-- `Skak::skip(iter, index)`: materialize `index` elements from a clone of
the current `Skip` (the clone pays off the pending count; the original is
untouched), then `iter.iter.n += index` — a plain `usize` addition, which
wraps modulo `2^64` in release builds. -/
def Skak.skip (s : Skip α) (index : Nat) : List α × Skip α :=
  (skakTake s index, ⟨s.iter, (s.n + index) % (USIZE_MAX + 1)⟩)

/-- `Skak::size_hint` delegates to the inner `Skip`. -/
def Skak.size_hint (s : Skip α) : Nat × Option Nat := Skip.size_hint s

/-- Run the windowing protocol from an existing continuation: one
`Skak::skip` per requested window size, collecting the buffers. -/
def skipWindows (s : Skip α) : List Nat → List (List α) × Skip α
  | [] => ([], s)
  | k :: ks =>
    let p := Skak.skip s k
    let rest := skipWindows p.2 ks
    (p.1 :: rest.1, rest.2)

/-- The number of elements a continuation can still effectively yield. -/
def effectiveRemaining (s : Skip α) : Nat := s.iter.length - s.n

/-! ### Helper lemmas -/

theorem Skip.next_eq (l : List α) (p : Nat) :
    Skip.next ⟨l, p⟩ = ((l.drop p).head?, ⟨l.drop (p + 1), 0⟩) := by
  rcases p with _ | q
  · simp [Skip.next, listNext, List.drop_one]
  · simp only [Skip.next, listNth, listNext]
    simp [List.tail_drop]

theorem skakTake_eq (k : Nat) : ∀ (l : List α) (p : Nat),
    skakTake ⟨l, p⟩ k = (l.drop p).take k := by
  induction k with
  | zero => intro l p; rfl
  | succ k ih =>
    intro l p
    have hnext := Skip.next_eq l p
    rcases h : l.drop p with _ | ⟨a, t⟩
    · rw [h] at hnext
      simp only [skakTake, hnext, List.head?_nil]
      simp
    · rw [h] at hnext
      have ht : l.drop (p + 1) = t := by
        have htl := List.tail_drop l p
        rw [h] at htl
        simpa using htl.symm
      rw [ht] at hnext
      simp only [skakTake, hnext, List.head?_cons]
      have h0 := ih t 0
      simp only [List.drop_zero] at h0
      rw [h0]
      simp

theorem Skip.advance_by_spec (l : List α) (p n : Nat)
    (hp : p ≤ USIZE_MAX) (hn : n ≤ USIZE_MAX) :
    Skip.advance_by ⟨l, p⟩ n =
      ((if n ≤ l.length - p then .ok () else .error (l.length - p)),
        ⟨l.drop (p + n), p - l.length⟩) := by
  by_cases h1 : satAdd p n ≤ l.length
  · have e1 : listAdvanceBy l (satAdd p n) = (.ok (), l.drop (satAdd p n)) := by
      simp [listAdvanceBy, h1]
    by_cases h2 : 0 < n - (satAdd p n - p)
    · by_cases h3 : n - (satAdd p n - p) ≤ (l.drop (satAdd p n)).length
      · have e2 : listAdvanceBy (l.drop (satAdd p n)) (n - (satAdd p n - p)) =
            (.ok (), (l.drop (satAdd p n)).drop (n - (satAdd p n - p))) := by
          unfold listAdvanceBy
          rw [if_pos h3]
        simp only [Skip.advance_by, e1, e2, gt_iff_lt, if_pos h2]
        rw [List.drop_drop]
        simp only [satAdd] at h1 h2 h3 ⊢
        simp only [List.length_drop] at h3
        rw [if_pos (by omega)]
        have harg : (p + n) ⊓ USIZE_MAX + (n - ((p + n) ⊓ USIZE_MAX - p)) = p + n := by
          omega
        rw [harg]
        have hn2 : (0 : Nat) = p - l.length := by omega
        rw [← hn2]
      · have e2 : listAdvanceBy (l.drop (satAdd p n)) (n - (satAdd p n - p)) =
            (.error (l.drop (satAdd p n)).length, []) := by
          unfold listAdvanceBy
          rw [if_neg h3]
        simp only [Skip.advance_by, e1, e2, gt_iff_lt, if_pos h2]
        simp only [satAdd] at h1 h2 h3 ⊢
        simp only [List.length_drop] at h3 ⊢
        rw [if_neg (by omega)]
        have harg : n - (n - ((p + n) ⊓ USIZE_MAX - p) - (l.length - (p + n) ⊓ USIZE_MAX))
            = l.length - p := by omega
        rw [harg]
        have hdrop : List.drop (p + n) l = ([] : List α) :=
          List.drop_eq_nil_of_le (by omega)
        rw [hdrop]
        have hn2 : (0 : Nat) = p - l.length := by omega
        rw [← hn2]
    · simp only [Skip.advance_by, e1, gt_iff_lt, if_neg h2]
      simp only [satAdd] at h1 h2 ⊢
      rw [if_pos (by omega)]
      have harg : (p + n) ⊓ USIZE_MAX = p + n := by omega
      rw [harg]
      have hn2 : (0 : Nat) = p - l.length := by omega
      rw [← hn2]
  · have e1 : listAdvanceBy l (satAdd p n) = (.error l.length, []) := by
      simp [listAdvanceBy, h1]
    simp only [Skip.advance_by, e1]
    simp only [satAdd] at h1 ⊢
    have hdrop : List.drop (p + n) l = ([] : List α) :=
      List.drop_eq_nil_of_le (by omega)
    rw [hdrop]
    by_cases hz : n = 0
    · subst hz
      rw [if_pos rfl, if_pos (by omega)]
    · rw [if_neg hz, if_neg (by omega)]

theorem Skak.skip_eq (l : List α) (p k : Nat) (h : p + k ≤ USIZE_MAX) :
    Skak.skip ⟨l, p⟩ k = ((l.drop p).take k, ⟨l, p + k⟩) := by
  unfold Skak.skip
  rw [skakTake_eq]
  have hm : (p + k) % (USIZE_MAX + 1) = p + k := Nat.mod_eq_of_lt (by omega)
  rw [hm]

theorem skipWindows_spec (ks : List Nat) : ∀ (l : List α) (p : Nat),
    p + ks.sum ≤ USIZE_MAX →
    (skipWindows ⟨l, p⟩ ks).1.flatten = (l.drop p).take ks.sum
      ∧ (skipWindows ⟨l, p⟩ ks).2 = ⟨l, p + ks.sum⟩ := by
  induction ks with
  | nil =>
    intro l p h
    constructor
    · rfl
    · simp [skipWindows]
  | cons k ks ih =>
    intro l p h
    rw [List.sum_cons] at h
    have h1 : p + k ≤ USIZE_MAX := by omega
    have hrec := ih l (p + k) (by omega)
    simp only [skipWindows, Skak.skip_eq l p k h1]
    rcases hrec with ⟨hflat, hstate⟩
    constructor
    · simp only [List.flatten_cons, hflat]
      rw [← List.drop_drop, ← List.take_add, List.sum_cons]
    · rw [hstate, List.sum_cons, Nat.add_assoc]

theorem produceFuel_eq (fuel : Nat) : ∀ (l : List α) (p : Nat),
    l.length - p < fuel → produceFuel fuel ⟨l, p⟩ = l.drop p := by
  induction fuel with
  | zero => intro l p h; omega
  | succ fuel ih =>
    intro l p h
    have hnext := Skip.next_eq l p
    rcases hd : l.drop p with _ | ⟨a, t⟩
    · rw [hd] at hnext
      simp only [produceFuel, hnext, List.head?_nil]
    · rw [hd] at hnext
      have ht : l.drop (p + 1) = t := by
        have htl := List.tail_drop l p
        rw [hd] at htl
        simpa using htl.symm
      have hlen : p < l.length := by
        by_contra hge
        rw [List.drop_eq_nil_of_le (by omega)] at hd
        cases hd
      simp only [hnext, List.head?_cons, produceFuel]
      have hrec := ih (l.drop (p + 1)) 0 (by simp [List.length_drop]; omega)
      rw [hrec]
      simp [ht]

theorem Skip.nexts_zero (k : Nat) : ∀ l : List α,
    Skip.nexts k ⟨l, 0⟩ = ⟨l.drop k, 0⟩ := by
  induction k with
  | zero => intro l; rfl
  | succ k ih =>
    intro l
    have hnext := Skip.next_eq l 0
    simp only [Nat.zero_add, List.drop_zero] at hnext
    simp only [Skip.nexts, hnext, ih (l.drop 1)]
    rw [List.drop_drop]
    rw [Nat.add_comm]

/-! ### Instrumented embedding: counting element visits

To reason about how often the core's traversal logic visits a source
element, the same definitions are repeated over a cursor that records the
absolute positions its single-step advances pass over (the element-by-element
behaviour of the default `Iterator::nth`). -/

/-- A source cursor carrying its absolute position. -/
structure Cursor (α : Type u) where
  pos : Nat
  rest : List α
  deriving Repr, DecidableEq

/-- Instrumented `Iterator::next`: the yielded element, the new cursor, and
the positions visited. -/
def cursorNext (c : Cursor α) : Option α × Cursor α × List Nat :=
  match c.rest with
  | [] => (none, c, [])
  | a :: as => (some a, ⟨c.pos + 1, as⟩, [c.pos])

/-- Instrumented `Iterator::nth k`: advances element by element, visiting
`min (k + 1) len` positions. -/
def cursorNth (c : Cursor α) (k : Nat) : Option α × Cursor α × List Nat :=
  (c.rest.get? k, ⟨c.pos + min (k + 1) c.rest.length, c.rest.drop (k + 1)⟩,
    List.range' c.pos (min (k + 1) c.rest.length))

/-- `Skip` over an instrumented cursor. -/
structure SkipC (α : Type u) where
  iter : Cursor α
  n : Nat
  deriving Repr, DecidableEq

/-- Instrumented `Skip::next`. -/
def SkipC.next (s : SkipC α) : Option α × SkipC α × List Nat :=
  if s.n > 0 then
    let r1 := cursorNth s.iter (s.n - 1)
    let r2 := cursorNext r1.2.1
    (r2.1, ⟨r2.2.1, 0⟩, r1.2.2 ++ r2.2.2)
  else
    let r := cursorNext s.iter
    (r.1, ⟨r.2.1, 0⟩, r.2.2)

/-- Instrumented window materialization (`take k` by repeated `next`). -/
def skakTakeC (s : SkipC α) : Nat → List α × List Nat
  | 0 => ([], [])
  | k + 1 =>
    match SkipC.next s with
    | (none, _, v) => ([], v)
    | (some a, s', v) =>
      let r := skakTakeC s' k
      (a :: r.1, v ++ r.2)

/-- Instrumented `Skak::new`. -/
def skakNewC (l : List α) (k : Nat) : (List α × List Nat) × SkipC α :=
  (skakTakeC ⟨⟨0, l⟩, 0⟩ k, ⟨⟨0, l⟩, k⟩)

/-- Instrumented `Skak::skip`: the clone is drained for the buffer, the
original cursor is untouched and only the pending count grows. -/
def skakSkipC (s : SkipC α) (k : Nat) : (List α × List Nat) × SkipC α :=
  (skakTakeC s k, ⟨s.iter, (s.n + k) % (USIZE_MAX + 1)⟩)

/-- Positions visited by the remaining `advance` calls of a protocol run. -/
def traceVisitsGo (s : SkipC α) : List Nat → List Nat
  | [] => []
  | k :: ks =>
    let r := skakSkipC s k
    r.1.2 ++ traceVisitsGo r.2 ks

/-- All positions visited by the core's traversal over a full protocol run:
`open(l, k0)` followed by `advance` with sizes `ks`. -/
def traceVisits (l : List α) (k0 : Nat) (ks : List Nat) : List Nat :=
  let r := skakNewC l k0
  r.1.2 ++ traceVisitsGo r.2 ks

theorem range'_glue (a m n : Nat) :
    List.range' a m ++ List.range' (a + m) n = List.range' a (m + n) := by
  have h := List.range'_append a m n 1
  simp only [Nat.one_mul] at h
  rw [h, Nat.add_comm]

theorem skakTakeC_zero_pending (k : Nat) : ∀ (q : Nat) (r : List α),
    (skakTakeC ⟨⟨q, r⟩, 0⟩ k).2 = List.range' q (min k r.length) := by
  induction k with
  | zero => intro q r; simp [skakTakeC]
  | succ k ih =>
    intro q r
    cases r with
    | nil => simp [skakTakeC, SkipC.next, cursorNext]
    | cons a as =>
      have hnext : SkipC.next ⟨⟨q, a :: as⟩, 0⟩ = (some a, ⟨⟨q + 1, as⟩, 0⟩, [q]) := by
        simp [SkipC.next, cursorNext]
      simp only [skakTakeC, hnext, ih (q + 1) as]
      have hm : min (k + 1) (a :: as).length = min k as.length + 1 := by
        simp [List.length_cons]
        omega
      rw [hm, List.range'_succ]
      simp

theorem skakTakeC_visits (l : List α) (p k : Nat) (hk : 1 ≤ k) :
    (skakTakeC ⟨⟨0, l⟩, p⟩ k).2 = List.range' 0 (min (p + k) l.length) := by
  rcases k with _ | k
  · omega
  rcases p with _ | q
  · have h := skakTakeC_zero_pending (k + 1) 0 l
    simpa using h
  · have hnth : cursorNth ⟨0, l⟩ q =
        (l.get? q, ⟨min (q + 1) l.length, l.drop (q + 1)⟩,
          List.range' 0 (min (q + 1) l.length)) := by
      simp [cursorNth]
    rcases hd : l.drop (q + 1) with _ | ⟨a, t⟩
    · have hnext : SkipC.next ⟨⟨0, l⟩, q + 1⟩ =
          (none, ⟨⟨min (q + 1) l.length, []⟩, 0⟩,
            List.range' 0 (min (q + 1) l.length)) := by
        simp [SkipC.next, hnth, hd, cursorNext]
      simp only [skakTakeC, hnext]
      have hL : l.length ≤ q + 1 := by
        have := List.drop_eq_nil_iff.mp hd
        omega
      congr 1
      omega
    · have hq : q + 1 < l.length := by
        by_contra hge
        rw [List.drop_eq_nil_of_le (by omega)] at hd
        cases hd
      have hmin : min (q + 1) l.length = q + 1 := by omega
      have hnext : SkipC.next ⟨⟨0, l⟩, q + 1⟩ =
          (some a, ⟨⟨q + 2, t⟩, 0⟩, List.range' 0 (q + 1) ++ [q + 1]) := by
        simp [SkipC.next, hnth, hd, cursorNext, hmin]
      simp only [skakTakeC, hnext, skakTakeC_zero_pending k (q + 2) t]
      have ht : t.length = l.length - q - 2 := by
        have hlen := congrArg List.length hd
        simp only [List.length_drop, List.length_cons] at hlen
        omega
      have h1 : List.range' 0 (q + 1) ++ [q + 1] = List.range' 0 (q + 2) := by
        have h2 := range'_glue 0 (q + 1) 1
        simpa using h2
      rw [h1]
      have h3 : List.range' 0 (q + 2) ++ List.range' (q + 2) (min k t.length)
          = List.range' 0 (q + 2 + min k t.length) := by
        have h4 := range'_glue 0 (q + 2) (min k t.length)
        simpa using h4
      rw [h3]
      congr 1
      omega

/-! ### Claims -/

/-- C1: Bounded advance is exact.  For a `Skip` with pending count `p` over a
source with `m = length - p` elements effectively available after the skip,
`advance_by n` returns `Ok` iff `n ≤ m`, and otherwise reports exactly `m`
elements advanced out of the caller's requested `n` (elements that only
discharged pending never count as progress), for all `usize`-representable
`p` and `n`, including combinations whose naive sum would overflow. -/
theorem claim_C1_advance_by_exact (l : List α) (p n : Nat)
    (hp : p ≤ USIZE_MAX) (hn : n ≤ USIZE_MAX) :
    ((Skip.advance_by ⟨l, p⟩ n).1 = .ok () ↔ n ≤ l.length - p)
      ∧ (l.length - p < n →
        (Skip.advance_by ⟨l, p⟩ n).1 = .error (l.length - p)) := by
  rw [Skip.advance_by_spec l p n hp hn]
  dsimp only
  constructor
  · constructor
    · intro he
      by_contra hcon
      rw [if_neg hcon] at he
      exact Except.noConfusion he
    · intro hle
      rw [if_pos hle]
  · intro hlt
    rw [if_neg (by omega)]

theorem claim_C1_advance_by_exact_witness :
    ((2 : Nat) ≤ USIZE_MAX ∧ (5 : Nat) ≤ USIZE_MAX)
      ∧ (((Skip.advance_by (⟨[1, 2, 3, 4], 2⟩ : Skip Nat) 5).1 = .ok ()
            ↔ (5 : Nat) ≤ [1, 2, 3, 4].length - 2)
          ∧ ([1, 2, 3, 4].length - 2 < 5 →
            (Skip.advance_by (⟨[1, 2, 3, 4], 2⟩ : Skip Nat) 5).1
              = .error ([1, 2, 3, 4].length - 2))) :=
  ⟨⟨by decide, by decide⟩,
    claim_C1_advance_by_exact [1, 2, 3, 4] 2 5 (by decide) (by decide)⟩

/-- C5 (amended): `advance_by` combines `pending` with the caller's `n`
using saturating arithmetic plus an explicit saturation-recovery second
call, so its outcome is numerically exact — the final state is advanced past
exactly `pending + n` (clipped by availability) with an exact pending
remainder — and no overflow is possible there; the original claim fails
because `Skak::skip` composes skips with a plain `n += index`, which wraps
(or panics under overflow checks) once the accumulated total exceeds
`usize::MAX`, producing an incorrect pending total (see the
counterexample). -/
theorem claim_C5_advance_by_saturating_exact (l : List α) (p n : Nat)
    (hp : p ≤ USIZE_MAX) (hn : n ≤ USIZE_MAX) :
    (Skip.advance_by ⟨l, p⟩ n).2 = ⟨l.drop (p + n), p - l.length⟩ := by
  rw [Skip.advance_by_spec l p n hp hn]

theorem claim_C5_advance_by_saturating_exact_witness :
    ((3 : Nat) ≤ USIZE_MAX ∧ (2 : Nat) ≤ USIZE_MAX)
      ∧ (Skip.advance_by (⟨[1, 2, 3, 4], 3⟩ : Skip Nat) 2).2
        = ⟨[1, 2, 3, 4].drop (3 + 2), 3 - [1, 2, 3, 4].length⟩ :=
  ⟨⟨by decide, by decide⟩,
    claim_C5_advance_by_saturating_exact [1, 2, 3, 4] 3 2 (by decide) (by decide)⟩

/-- C5 counterexample: composing window skips is NOT overflow-safe: with
pending `usize::MAX`, a further `Skak::skip` of 1 wraps the pending total to
0 instead of `usize::MAX + 1`, and the resulting continuation wrongly
produces the element that should have been skipped. -/
theorem claim_C5_counterexample :
    (Skak.skip (⟨[5], USIZE_MAX⟩ : Skip Nat) 1).2.n = 0
      ∧ (Skak.skip (⟨[5], USIZE_MAX⟩ : Skip Nat) 1).2.n ≠ USIZE_MAX + 1
      ∧ (Skip.next (Skak.skip (⟨[5], USIZE_MAX⟩ : Skip Nat) 1).2).1 = some 5 := by
  refine ⟨by decide, by decide, by decide⟩

/-- C10: calling `advance_by 0` on a `Skip` with a positive pending count
always returns `Ok`, even when the source is exhausted before the pending
skip is fully paid off, yet it mutates the state: the source is advanced by
up to `pending` elements and the pending count is reduced by the amount
actually advanced. -/
theorem claim_C10_advance_by_zero (l : List α) (p : Nat) (_h0 : 0 < p)
    (hp : p ≤ USIZE_MAX) :
    Skip.advance_by ⟨l, p⟩ 0 = (.ok (), ⟨l.drop p, p - l.length⟩) := by
  rw [Skip.advance_by_spec l p 0 hp (Nat.zero_le _)]
  rw [if_pos (by omega), Nat.add_zero]

theorem claim_C10_advance_by_zero_witness :
    ((0 : Nat) < 5 ∧ (5 : Nat) ≤ USIZE_MAX)
      ∧ Skip.advance_by (⟨[1, 2], 5⟩ : Skip Nat) 0
        = (.ok (), ⟨[1, 2].drop 5, 5 - [1, 2].length⟩) :=
  ⟨⟨by decide, by decide⟩,
    claim_C10_advance_by_zero [1, 2] 5 (by decide) (by decide)⟩

/-- C2 counterexample: the round-trip fails for window sequences whose
accumulated total overflows `usize`: opening `[42]` with `usize::MAX` and
advancing by 1, 1 wraps the pending count (`Skak::skip`'s plain `+=`), so
the continuation re-delivers element 42 — the buffers concatenate to
`[42, 42]` instead of the prefix `[42]` — and after one advance the
continuation's effective remaining length is 1, not `L - Σkᵢ = 0`. -/
theorem claim_C2_counterexample :
    ((((Skak.new ([42] : List Nat) USIZE_MAX).1
        :: (skipWindows (Skak.new ([42] : List Nat) USIZE_MAX).2 [1, 1]).1).flatten
      ≠ ([42] : List Nat).take (USIZE_MAX + ([1, 1] : List Nat).sum))
      ∧ (((Skak.new ([42] : List Nat) USIZE_MAX).1
          :: (skipWindows (Skak.new ([42] : List Nat) USIZE_MAX).2 [1, 1]).1).flatten
        = [42, 42])
      ∧ ([42] : List Nat).take (USIZE_MAX + ([1, 1] : List Nat).sum) = [42])
      ∧ ((effectiveRemaining (skipWindows
            (Skak.new ([42] : List Nat) USIZE_MAX).2 [1]).2
          ≠ ([42] : List Nat).length - (USIZE_MAX + ([1] : List Nat).sum))
        ∧ effectiveRemaining (skipWindows
            (Skak.new ([42] : List Nat) USIZE_MAX).2 [1]).2 = 1
        ∧ ([42] : List Nat).length - (USIZE_MAX + ([1] : List Nat).sum) = 0) := by
  refine ⟨⟨by decide, by decide, by decide⟩, by decide, by decide, by decide⟩

/-- C2 (amended): windowing round-trip for totals within `usize`.  Whenever
`k0 + sum ks ≤ usize::MAX` (so the accumulated pending cannot wrap), opening
with window size `k0` and then advancing with sizes `ks` yields buffers
whose concatenation is exactly the source's prefix of length `k0 + sum ks`
(capped at the source length, in original order), and the final
continuation's effective remaining length is the source length minus the
total, saturating at zero; in particular on `[1..8]` with window size 2
throughout the buffers are `[1,2]`, `[3,4]`, `[5,6]`, `[7,8]`, then an
empty buffer with the continuation reporting zero remaining.  Beyond
`usize::MAX` the pending wraps and the round-trip fails (see the
counterexample). -/
theorem claim_C2_window_roundtrip (l : List α) (k0 : Nat) (ks : List Nat)
    (h : k0 + ks.sum ≤ USIZE_MAX) :
    (((Skak.new l k0).1 :: (skipWindows (Skak.new l k0).2 ks).1).flatten
        = l.take (k0 + ks.sum)
      ∧ effectiveRemaining (skipWindows (Skak.new l k0).2 ks).2
        = l.length - (k0 + ks.sum))
      ∧ ((Skak.new ([1, 2, 3, 4, 5, 6, 7, 8] : List Nat) 2).1 = [1, 2]
        ∧ (skipWindows (Skak.new ([1, 2, 3, 4, 5, 6, 7, 8] : List Nat) 2).2
            [2, 2, 2, 2]).1 = [[3, 4], [5, 6], [7, 8], []]
        ∧ Skak.size_hint (skipWindows
            (Skak.new ([1, 2, 3, 4, 5, 6, 7, 8] : List Nat) 2).2 [2, 2, 2, 2]).2
          = (0, some 0)) := by
  have hw := skipWindows_spec ks l k0 h
  rcases hw with ⟨hflat, hstate⟩
  refine ⟨⟨?_, ?_⟩, by decide, by decide, by decide⟩
  · show (l.take k0 :: (skipWindows ⟨l, k0⟩ ks).1).flatten = l.take (k0 + ks.sum)
    rw [List.flatten_cons, hflat, ← List.take_add]
  · show effectiveRemaining (skipWindows ⟨l, k0⟩ ks).2 = l.length - (k0 + ks.sum)
    rw [hstate]
    rfl

theorem claim_C2_window_roundtrip_witness :
    (2 + ([3, 3] : List Nat).sum ≤ USIZE_MAX)
      ∧ ((((Skak.new ([10, 20, 30, 40, 50] : List Nat) 2).1
            :: (skipWindows (Skak.new ([10, 20, 30, 40, 50] : List Nat) 2).2
                [3, 3]).1).flatten
          = [10, 20, 30, 40, 50].take (2 + ([3, 3] : List Nat).sum)
        ∧ effectiveRemaining (skipWindows
            (Skak.new ([10, 20, 30, 40, 50] : List Nat) 2).2 [3, 3]).2
          = [10, 20, 30, 40, 50].length - (2 + ([3, 3] : List Nat).sum))
      ∧ ((Skak.new ([1, 2, 3, 4, 5, 6, 7, 8] : List Nat) 2).1 = [1, 2]
        ∧ (skipWindows (Skak.new ([1, 2, 3, 4, 5, 6, 7, 8] : List Nat) 2).2
            [2, 2, 2, 2]).1 = [[3, 4], [5, 6], [7, 8], []]
        ∧ Skak.size_hint (skipWindows
            (Skak.new ([1, 2, 3, 4, 5, 6, 7, 8] : List Nat) 2).2 [2, 2, 2, 2]).2
          = (0, some 0))) :=
  ⟨by decide, claim_C2_window_roundtrip [10, 20, 30, 40, 50] 2 [3, 3] (by decide)⟩

/-- C3 counterexample: the claim quantifies over all skip counts, but
composing with `Skak::skip`'s `n += index` at `s1 = usize::MAX`, `s2 = 1`
wraps the pending count to 0 instead of `s1 + s2`: the composed skip
produces the very first element — i.e. it skips nothing, although the two
composed skips total `2^64` — while a deferred skip whose pending really is
`s1 + s2` (representable in the model's unbounded counter, not in `usize`)
is exhausted.  Composition is therefore not observationally identical to a
single skip of `s1 + s2` under produce-next. -/
theorem claim_C3_counterexample :
    (Skak.skip (⟨[7], USIZE_MAX⟩ : Skip Nat) 1).2.n = 0
      ∧ (Skak.skip (⟨[7], USIZE_MAX⟩ : Skip Nat) 1).2.n ≠ USIZE_MAX + 1
      ∧ (Skip.next (Skak.skip (⟨[7], USIZE_MAX⟩ : Skip Nat) 1).2).1 = some 7
      ∧ (Skip.next (⟨[7], USIZE_MAX + 1⟩ : Skip Nat)).1 = none := by
  refine ⟨by decide, by decide, by decide, by decide⟩

/-- C3 (amended): for all `s1, s2` whose sum does not exceed `usize::MAX`
(no overflow in the `n += index` composition), the composed deferred skip is
the very same state as a single deferred skip with pending `s1 + s2`, and
hence observationally identical under produce-next, count, last, fold and
bounded advance. -/
theorem claim_C3_compose_skips (l : List α) (s1 s2 k : Nat) (init : β)
    (f : β → α → β) (h : s1 + s2 ≤ USIZE_MAX) :
    (Skak.skip ⟨l, s1⟩ s2).2 = ⟨l, s1 + s2⟩
      ∧ Skip.next (Skak.skip ⟨l, s1⟩ s2).2 = Skip.next ⟨l, s1 + s2⟩
      ∧ Skip.count (Skak.skip ⟨l, s1⟩ s2).2 = Skip.count ⟨l, s1 + s2⟩
      ∧ Skip.last (Skak.skip ⟨l, s1⟩ s2).2 = Skip.last ⟨l, s1 + s2⟩
      ∧ Skip.fold (Skak.skip ⟨l, s1⟩ s2).2 init f = Skip.fold ⟨l, s1 + s2⟩ init f
      ∧ Skip.advance_by (Skak.skip ⟨l, s1⟩ s2).2 k
        = Skip.advance_by ⟨l, s1 + s2⟩ k := by
  have hstate : (Skak.skip ⟨l, s1⟩ s2).2 = ⟨l, s1 + s2⟩ := by
    show (⟨l, (s1 + s2) % (USIZE_MAX + 1)⟩ : Skip α) = ⟨l, s1 + s2⟩
    rw [Nat.mod_eq_of_lt (by omega)]
  exact ⟨hstate, by rw [hstate], by rw [hstate], by rw [hstate],
    by rw [hstate], by rw [hstate]⟩

theorem claim_C3_compose_skips_witness :
    ((1 : Nat) + 1 ≤ USIZE_MAX)
      ∧ ((Skak.skip (⟨[10, 20, 30], 1⟩ : Skip Nat) 1).2 = ⟨[10, 20, 30], 1 + 1⟩
        ∧ Skip.next (Skak.skip (⟨[10, 20, 30], 1⟩ : Skip Nat) 1).2
          = Skip.next ⟨[10, 20, 30], 1 + 1⟩
        ∧ Skip.count (Skak.skip (⟨[10, 20, 30], 1⟩ : Skip Nat) 1).2
          = Skip.count ⟨[10, 20, 30], 1 + 1⟩
        ∧ Skip.last (Skak.skip (⟨[10, 20, 30], 1⟩ : Skip Nat) 1).2
          = Skip.last ⟨[10, 20, 30], 1 + 1⟩
        ∧ Skip.fold (Skak.skip (⟨[10, 20, 30], 1⟩ : Skip Nat) 1).2 0
            (fun a b => a + b)
          = Skip.fold ⟨[10, 20, 30], 1 + 1⟩ 0 (fun a b => a + b)
        ∧ Skip.advance_by (Skak.skip (⟨[10, 20, 30], 1⟩ : Skip Nat) 1).2 1
          = Skip.advance_by ⟨[10, 20, 30], 1 + 1⟩ 1) :=
  ⟨by decide,
    claim_C3_compose_skips [10, 20, 30] 1 1 1 0 (fun a b => a + b) (by decide)⟩

/-- C4: for a finite source of length `L` and skip count `s ≤ L`, repeatedly
producing from a deferred skip with pending `s` yields exactly the source's
elements at positions `s, s+1, …, L-1` in order, and the call after the last
element reports exhaustion. -/
theorem claim_C4_produce_suffix (l : List α) (s : Nat) (h : s ≤ l.length) :
    Skip.produce ⟨l, s⟩ = l.drop s
      ∧ (Skip.next (Skip.nexts (l.length - s) ⟨l, s⟩)).1 = none := by
  constructor
  · unfold Skip.produce
    exact produceFuel_eq (l.length + 1) l s (by omega)
  · rcases Nat.eq_or_lt_of_le h with heq | hlt
    · rw [heq, Nat.sub_self]
      show (Skip.next ⟨l, l.length⟩).1 = none
      rw [Skip.next_eq, List.drop_eq_nil_of_le (Nat.le_refl _)]
      rfl
    · have hm : l.length - s = (l.length - s - 1) + 1 := by omega
      rw [hm]
      show (Skip.next (Skip.nexts (l.length - s - 1) (Skip.next ⟨l, s⟩).2)).1
        = none
      have hsnd : (Skip.next ⟨l, s⟩).2 = ⟨l.drop (s + 1), 0⟩ := by
        rw [Skip.next_eq]
      rw [hsnd, Skip.nexts_zero, List.drop_drop]
      have htot : s + 1 + (l.length - s - 1) = l.length := by omega
      rw [htot, Skip.next_eq, List.drop_zero,
        List.drop_eq_nil_of_le (Nat.le_refl _)]
      rfl

theorem claim_C4_produce_suffix_witness :
    ((1 : Nat) ≤ [1, 2, 3].length)
      ∧ (Skip.produce (⟨[1, 2, 3], 1⟩ : Skip Nat) = [1, 2, 3].drop 1
        ∧ (Skip.next (Skip.nexts ([1, 2, 3].length - 1)
            (⟨[1, 2, 3], 1⟩ : Skip Nat))).1 = none) :=
  ⟨by decide, claim_C4_produce_suffix [1, 2, 3] 1 (by decide)⟩

/-- C6: fold and short-circuiting fold first pay off the pending count,
return exactly the initial accumulator when the source is exhausted during
pay-off (try_fold wrapping it in the success constructor), and otherwise
delegate to the source's fold / short-circuiting fold, the latter passing
the source's early-termination signal through unchanged. -/
theorem claim_C6_folds (l : List α) (p : Nat) (init : β) (f : β → α → β)
    (g : β → α → Except ε β) :
    Skip.fold ⟨l, p⟩ init f
        = (if l.length < p then init else (l.drop p).foldl f init)
      ∧ (Skip.try_fold ⟨l, p⟩ init g).1
        = (if l.length < p then .ok init else listTryFoldl g init (l.drop p)) := by
  rcases p with _ | q
  · have hneg : ¬ l.length < 0 := by omega
    constructor
    · rw [if_neg hneg]
      simp [Skip.fold]
    · rw [if_neg hneg]
      simp [Skip.try_fold, listTryFoldl]
  · by_cases hlen : l.length < q + 1
    · have hget : l[q]? = none := List.getElem?_eq_none (by omega)
      constructor
      · simp [Skip.fold, listNth, hget, hlen]
      · simp [Skip.try_fold, listNth, hget, hlen]
    · rcases hsome : l[q]? with _ | a
      · rw [List.getElem?_eq_none_iff] at hsome
        omega
      · constructor
        · simp [Skip.fold, listNth, hsome, hlen]
        · simp [Skip.try_fold, listNth, listTryFoldl, hsome, hlen]

theorem Skip.nth_eq (l : List α) (p k : Nat) (h : p ≤ l.length) :
    Skip.nth ⟨l, p⟩ k = ((l.drop p)[k]?, ⟨l.drop (p + k + 1), 0⟩) := by
  rcases p with _ | q
  · simp [Skip.nth, listNth]
  · have hq : q < l.length := by omega
    rcases hx : l[q]? with _ | a
    · rw [List.getElem?_eq_none_iff] at hx
      omega
    · simp only [Skip.nth, listNth, Nat.add_sub_cancel, hx]
      rw [if_pos (Nat.succ_pos q)]
      have hd : List.drop (k + 1) (List.drop (q + 1) l)
          = List.drop (q + 1 + k + 1) l := by
        rw [List.drop_drop]
        congr 1
      simp [hd]

/-- C7 counterexample: the pending count can exceed the number of elements
actually remaining: opening a window of 2 over a one-element source leaves a
continuation with pending 2 but only 1 element. -/
theorem claim_C7_counterexample :
    ((Skak.new ([1] : List Nat) 2).2).iter.length
      < ((Skak.new ([1] : List Nat) 2).2).n := by
  decide

/-- C7 (amended): the pending count CAN exceed the number of remaining
elements (windows larger than the source, see counterexample), but whenever
pending is at most the remaining length, each of produce-next, nth and
bounded-advance decreases pending only together with an actual advance of
the source of at least the same size (pending decrement is bounded by the
number of source elements consumed). -/
theorem claim_C7_pending_discharge (l : List α) (p k : Nat)
    (hp : p ≤ l.length) (hpm : p ≤ USIZE_MAX) (hk : k ≤ USIZE_MAX) :
    (p - (Skip.next ⟨l, p⟩).2.n
        ≤ l.length - (Skip.next ⟨l, p⟩).2.iter.length)
      ∧ (p - (Skip.nth ⟨l, p⟩ k).2.n
        ≤ l.length - (Skip.nth ⟨l, p⟩ k).2.iter.length)
      ∧ (p - (Skip.advance_by ⟨l, p⟩ k).2.n
        ≤ l.length - (Skip.advance_by ⟨l, p⟩ k).2.iter.length) := by
  refine ⟨?_, ?_, ?_⟩
  · rw [Skip.next_eq]
    dsimp only
    simp only [List.length_drop]
    omega
  · rw [Skip.nth_eq l p k hp]
    dsimp only
    simp only [List.length_drop]
    omega
  · rw [Skip.advance_by_spec l p k hpm hk]
    dsimp only
    simp only [List.length_drop]
    omega

theorem claim_C7_pending_discharge_witness :
    ((2 : Nat) ≤ [1, 2, 3].length ∧ (2 : Nat) ≤ USIZE_MAX
        ∧ (1 : Nat) ≤ USIZE_MAX)
      ∧ ((2 - (Skip.next (⟨[1, 2, 3], 2⟩ : Skip Nat)).2.n
          ≤ [1, 2, 3].length - (Skip.next (⟨[1, 2, 3], 2⟩ : Skip Nat)).2.iter.length)
        ∧ (2 - (Skip.nth (⟨[1, 2, 3], 2⟩ : Skip Nat) 1).2.n
          ≤ [1, 2, 3].length - (Skip.nth (⟨[1, 2, 3], 2⟩ : Skip Nat) 1).2.iter.length)
        ∧ (2 - (Skip.advance_by (⟨[1, 2, 3], 2⟩ : Skip Nat) 1).2.n
          ≤ [1, 2, 3].length
            - (Skip.advance_by (⟨[1, 2, 3], 2⟩ : Skip Nat) 1).2.iter.length)) :=
  ⟨⟨by decide, by decide, by decide⟩,
    claim_C7_pending_discharge [1, 2, 3] 2 1 (by decide) (by decide) (by decide)⟩

/-- C8 counterexample: the continuation-estimate part of the claim fails
once the accumulated window total overflows `usize`: opening `[42]` with
`usize::MAX` and advancing by 1 wraps the pending count to 0, so the
continuation reports size hint `(1, some 1)` although one element was
already delivered and the original source's estimate minus the delivered
count is `(0, some 0)`. -/
theorem claim_C8_counterexample :
    (Skak.size_hint (skipWindows (Skak.new ([42] : List Nat) USIZE_MAX).2 [1]).2
      ≠ skipSizeHint (listSizeHint ([42] : List Nat))
          (((Skak.new ([42] : List Nat) USIZE_MAX).1
            :: (skipWindows (Skak.new ([42] : List Nat) USIZE_MAX).2
                [1]).1).flatten.length))
      ∧ Skak.size_hint (skipWindows (Skak.new ([42] : List Nat) USIZE_MAX).2 [1]).2
        = (1, some 1)
      ∧ skipSizeHint (listSizeHint ([42] : List Nat))
          (((Skak.new ([42] : List Nat) USIZE_MAX).1
            :: (skipWindows (Skak.new ([42] : List Nat) USIZE_MAX).2
                [1]).1).flatten.length)
        = (0, some 0) := by
  refine ⟨by decide, by decide, by decide⟩

/-- C8 (amended): the size estimate subtracts the pending count from both
source bounds, saturating at zero, an unknown upper bound staying unknown
(unconditionally); and for a finite source the size estimate of a window
continuation equals the original source's estimate reduced by the total
number of elements delivered in buffers so far, provided the accumulated
window total `k0 + sum ks` is at most `usize::MAX` — beyond that the wrapped
pending makes the continuation report more than original-minus-delivered
(see the counterexample). -/
theorem claim_C8_size_hint (lo p : Nat) (up : Option Nat) (l : List α)
    (k0 : Nat) (ks : List Nat) (h : k0 + ks.sum ≤ USIZE_MAX) :
    skipSizeHint (lo, up) p = (lo - p, up.map (fun x => x - p))
      ∧ Skak.size_hint (skipWindows (Skak.new l k0).2 ks).2
        = skipSizeHint (listSizeHint l)
            (((Skak.new l k0).1
              :: (skipWindows (Skak.new l k0).2 ks).1).flatten.length) := by
  constructor
  · cases up <;> rfl
  · rcases skipWindows_spec ks l k0 h with ⟨hflat, hstate⟩
    show Skak.size_hint (skipWindows ⟨l, k0⟩ ks).2
        = skipSizeHint (listSizeHint l)
            ((l.take k0 :: (skipWindows ⟨l, k0⟩ ks).1).flatten.length)
    rw [hstate, List.flatten_cons, hflat, ← List.take_add]
    simp only [Skak.size_hint, Skip.size_hint, skipSizeHint, listSizeHint,
      List.length_take]
    have harith : l.length - (k0 + ks.sum)
        = l.length - ((k0 + ks.sum) ⊓ l.length) := by omega
    rw [harith]

theorem claim_C8_size_hint_witness :
    ((2 : Nat) + ([2] : List Nat).sum ≤ USIZE_MAX)
      ∧ (skipSizeHint (5, some 7) 2 = (5 - 2, (some 7).map (fun x => x - 2))
        ∧ Skak.size_hint (skipWindows (Skak.new ([4, 5, 6] : List Nat) 2).2 [2]).2
          = skipSizeHint (listSizeHint [4, 5, 6])
              (((Skak.new ([4, 5, 6] : List Nat) 2).1
                :: (skipWindows (Skak.new ([4, 5, 6] : List Nat) 2).2 [2]).1).flatten.length)) :=
  ⟨by decide, claim_C8_size_hint 5 2 (some 7) [4, 5, 6] 2 [2] (by decide)⟩

/-- C9 counterexample: over the source `[1,2,3]` with window sizes 1, 1, 1,
the element at position 0 is visited three times by the core's traversal
(once materialized, then re-scanned by the pay-off of each later window's
clone), refuting the at-most-twice claim. -/
theorem claim_C9_counterexample :
    (traceVisits ([1, 2, 3] : List Nat) 1 [1, 1]).count 0 = 3 := by
  decide

/-- C9 (amended): a window advance with accumulated pending `p` and size
`k ≥ 1` visits exactly the source positions below `min (p + k) L` — the
clone re-pays the entire accumulated pending from the original position, so
every element is re-scanned once per later window (not at most twice
overall). -/
theorem claim_C9_window_visits (l : List α) (p k : Nat) (hk : 1 ≤ k) :
    (skakSkipC ⟨⟨0, l⟩, p⟩ k).1.2 = List.range' 0 (min (p + k) l.length) :=
  skakTakeC_visits l p k hk

theorem claim_C9_window_visits_witness :
    ((1 : Nat) ≤ 1)
      ∧ (skakSkipC (⟨⟨0, [1, 2, 3]⟩, 1⟩ : SkipC Nat) 1).1.2
        = List.range' 0 (min (1 + 1) [1, 2, 3].length) :=
  ⟨by decide, claim_C9_window_visits [1, 2, 3] 1 1 (by decide)⟩
